import Mathlib

/-!
Verification development for the conversational-commerce agent orchestration
engine.  The definitions below are a shallow embedding of the Python source:

* `services/agent-app/agent_logic.py`  (OpenAI-compatible backend graph)
* `services/agent-app/agent_graph.py`  (local/Ollama backend graph)
* `services/agent-app/app.py`          (chainlit driver, recursion_limit)
* `services/agent-app/sap_client.py` and
  `services/agent-app/mcp_client_utils.py` (MCP tool executors)
* `services/sap-mcp-server/server.py`  (tool catalog and dispatcher)

Text is modelled as `List Char` (Python `str`), the language model and the
remote tools as oracle functions, and the LangGraph scheduler loop as a
fuel-indexed recursion whose fuel is the configured `recursion_limit`.
-/

namespace CommerceAgent

/-- Boolean test that `pat` is an initial segment of `s`
    (character-by-character, mirroring how Python compares strings). -/
def startsWithL : List Char → List Char → Bool
  | [], _ => true
  | _ :: _, [] => false
  | a :: as, b :: bs => a == b && startsWithL as bs

/-- Boolean substring test, the embedding of the Python membership test `pat in s` on strings. -/
def containsL (pat : List Char) : List Char → Bool
  | [] => startsWithL pat []
  | s@(_ :: rest) => startsWithL pat s || containsL pat rest

/-- Embedding of the Python slice `xs[-n:]`: the last `min n (length xs)`
    elements of `xs`. -/
def takeLastN (n : Nat) (xs : List α) : List α :=
  xs.drop (xs.length - n)

theorem startsWithL_iff (pat s : List Char) :
    startsWithL pat s = true ↔ pat <+: s := by
  induction pat generalizing s with
  | nil =>
      simp [startsWithL, List.nil_prefix]
  | cons a as ih =>
      cases s with
      | nil =>
          simp [startsWithL]
      | cons b bs =>
          simp only [startsWithL, Bool.and_eq_true, beq_iff_eq, ih,
            List.cons_prefix_cons]

theorem containsL_iff (pat s : List Char) :
    containsL pat s = true ↔ pat <:+: s := by
  induction s with
  | nil =>
      simp [containsL, startsWithL_iff, List.prefix_nil, List.infix_nil]
  | cons b bs ih =>
      simp only [containsL, Bool.or_eq_true, startsWithL_iff, ih,
        List.infix_cons_iff]

theorem takeLastN_suffix (n : Nat) (xs : List α) : takeLastN n xs <:+ xs :=
  List.drop_suffix _ _

theorem takeLastN_length (n : Nat) (xs : List α) :
    (takeLastN n xs).length = min n xs.length := by
  simp [takeLastN]
  omega

theorem takeLastN_of_short (n : Nat) (xs : List α) (h : xs.length ≤ n) :
    takeLastN n xs = xs := by
  simp [takeLastN, Nat.sub_eq_zero_of_le h]

theorem takeLastN_idem (n : Nat) (xs : List α) :
    takeLastN n (takeLastN n xs) = takeLastN n xs := by
  apply takeLastN_of_short
  rw [takeLastN_length]
  omega

/-! ## Data model: messages and state

Embedding of the LangChain message objects as used by the graphs, and of

    class AgentState(TypedDict):
        messages: Annotated[Sequence[BaseMessage], operator.add]
        next: str

from `agent_logic.py` lines 16-18 (identical in `agent_graph.py`).  The
`operator.add` annotation means every node update is appended to `messages`.
-/

/-- Message roles (user / assistant / system / tool). -/
inductive Role where
  | user
  | assistant
  | system
  | tool
deriving DecidableEq

/-- A tool call request emitted inside an assistant message. -/
structure ToolCall where
  id : List Char
  name : List Char
  args : List (List Char × List Char)
deriving DecidableEq

/-- One message of the conversation. -/
structure Message where
  role : Role
  content : List Char
  tool_calls : List ToolCall
  tool_call_id : Option (List Char)
deriving DecidableEq

/-- The graph state: the accumulated message sequence and the `next` routing
    field written by the supervisor. -/
structure AgentState where
  messages : List Message
  next : List Char
deriving DecidableEq

/-- A plain user message (`HumanMessage(content=...)`). -/
def humanMessage (content : List Char) : Message :=
  ⟨Role.user, content, [], none⟩

/-- A plain assistant message with no tool calls (`AIMessage(content=...)`). -/
def aiMessage (content : List Char) : Message :=
  ⟨Role.assistant, content, [], none⟩

/-! ## Router decision parsing

Embedding of the decision parsing inside `supervisor_node`
(`agent_logic.py` lines 119-124; the parsing in `agent_graph.py`
lines 160-165 is textually identical and is transcribed separately below
for the equivalence claim):

    if "SearchAgent" in text:
        return {"next": "SearchAgent"}
    elif "CartAgent" in text:
        return {"next": "CartAgent"}
    else:
        return {"next": "FINISH"}
-/

def searchAgentName : List Char := ("SearchAgent").data

def cartAgentName : List Char := ("CartAgent").data

def finishName : List Char := ("FINISH").data

/-- Decision parsing of `supervisor_node` in `agent_logic.py`. -/
def supervisorRouteText (text : List Char) : List Char :=
  if containsL searchAgentName text then searchAgentName
  else if containsL cartAgentName text then cartAgentName
  else finishName

/-- Decision parsing of `supervisor_node` in `agent_graph.py`
    (lines 160-165), transcribed independently. -/
def supervisorRouteTextG (text : List Char) : List Char :=
  if containsL searchAgentName text then searchAgentName
  else if containsL cartAgentName text then cartAgentName
  else finishName

/-- Formalisation of the claim wording only (not of the source): scan the
    text left to right and return the specialist name whose occurrence
    starts first; positions are examined in order, so the earliest
    occurrence in the text wins. -/
def firstNameInText : List Char → Option (List Char)
  | [] => none
  | c :: rest =>
      if startsWithL searchAgentName (c :: rest) then some searchAgentName
      else if startsWithL cartAgentName (c :: rest) then some cartAgentName
      else firstNameInText rest

/-- The route decision as the claim words it: first name occurring in the
    text wins, `FINISH` when no known name occurs. -/
def claimRouteText (text : List Char) : List Char :=
  (firstNameInText text).getD finishName

/-! ## Graph wiring

Embedding of the node/edge structure built by `create_agent_graph`
(`agent_logic.py` lines 126-194; `agent_graph.py` lines 167-235 is
textually identical wiring and is transcribed separately as `nextNodeG`).
-/

/-- The graph nodes added by `workflow.add_node`. -/
inductive Node where
  | supervisor
  | searchAgent
  | cartAgent
  | searchTools
  | cartTools
deriving DecidableEq

/-- Where an edge leads: to another node, or to the terminal `END`. -/
inductive Succ where
  | toNode (n : Node)
  | toEnd
deriving DecidableEq

/-- Entry point of the graph (`workflow.set_entry_point("Supervisor")`). -/
def entryPoint : Node := Node.supervisor

/-- Embedding of `should_continue` (`agent_logic.py` lines 160-165):
    inspect `messages[-1].tool_calls`.  Python raises `IndexError` on an
    empty list, modelled by `none`. -/
def should_continue (msgs : List Message) : Option Bool :=
  match msgs.getLast? with
  | some m => some (!m.tool_calls.isEmpty)
  | none => none

/-- The conditional-edge mapping out of `Supervisor`
    (`agent_logic.py` lines 148-156): an exact dictionary lookup on the
    value of the state field `next`; a value outside the dictionary would be a
    runtime `KeyError`, modelled by `none`. -/
def supervisorEdge (nx : List Char) : Option Succ :=
  if nx = searchAgentName then some (Succ.toNode Node.searchAgent)
  else if nx = cartAgentName then some (Succ.toNode Node.cartAgent)
  else if nx = finishName then some Succ.toEnd
  else none

/-- Transition structure of the graph built in `agent_logic.py`
    (entry, conditional edges, and the unconditional tool edges of
    lines 145-187). -/
def nextNodeL (node : Node) (st : AgentState) : Option Succ :=
  match node with
  | Node.supervisor => supervisorEdge st.next
  | Node.searchAgent =>
      match should_continue st.messages with
      | some true => some (Succ.toNode Node.searchTools)
      | some false => some (Succ.toNode Node.supervisor)
      | none => none
  | Node.cartAgent =>
      match should_continue st.messages with
      | some true => some (Succ.toNode Node.cartTools)
      | some false => some (Succ.toNode Node.supervisor)
      | none => none
  | Node.searchTools => some (Succ.toNode Node.searchAgent)
  | Node.cartTools => some (Succ.toNode Node.cartAgent)

/-- Transition structure of the graph built in `agent_graph.py`
    (lines 186-228), transcribed independently of `nextNodeL`. -/
def nextNodeG (node : Node) (st : AgentState) : Option Succ :=
  match node with
  | Node.supervisor => supervisorEdge st.next
  | Node.searchAgent =>
      match should_continue st.messages with
      | some true => some (Succ.toNode Node.searchTools)
      | some false => some (Succ.toNode Node.supervisor)
      | none => none
  | Node.cartAgent =>
      match should_continue st.messages with
      | some true => some (Succ.toNode Node.cartTools)
      | some false => some (Succ.toNode Node.supervisor)
      | none => none
  | Node.searchTools => some (Succ.toNode Node.searchAgent)
  | Node.cartTools => some (Succ.toNode Node.cartAgent)

/-! ## Node actions

The language model, the router model and the tool transport are external
collaborators; they enter the embedding as oracle functions.  A model
invocation either succeeds with a response `Message` or fails with an
error string (a raised exception carrying `str(e)`).
-/

/-- External collaborators of one graph: the raw text response of the
    router model as a function of the messages put in its prompt, the
    response of the agent model as a function of the messages put in its
    prompt, and the result text of the tool transport for a tool call. -/
structure Oracles where
  routerText : List Message → List Char
  model : List Message → Except (List Char) Message
  toolResult : ToolCall → List Char

/-- The configured agent message window (`state["messages"][-6:]`). -/
def agent_window : Nat := 6

/-- Messages placed in the agent model request by `agent_node` in
    `agent_logic.py` line 67: the last 6 messages. -/
def model_request_msgs_L (msgs : List Message) : List Message :=
  takeLastN agent_window msgs

/-- Messages placed in the agent model request by `agent_node` in
    `agent_graph.py` line 60: the whole state, hence the full message
    sequence, untrimmed. -/
def model_request_msgs_G (msgs : List Message) : List Message :=
  msgs

/-- Messages placed in the router prompt by `supervisor_node` in
    `agent_logic.py` line 112: the last 6 messages. -/
def router_request_msgs_L (msgs : List Message) : List Message :=
  takeLastN agent_window msgs

/-- Messages placed in the router prompt by `supervisor_node` in
    `agent_graph.py` line 157: the full message sequence, untrimmed. -/
def router_request_msgs_G (msgs : List Message) : List Message :=
  msgs

/-- The fixed text prefixed to a caught agent error
    (`agent_logic.py` line 73). -/
def agentErrorText (e : List Char) : List Char :=
  ("Error executing agent logic: ").data ++ e

/-- The messages fragment returned by `agent_node` in `agent_logic.py`
    lines 64-74: invoke the model on the last-6 window; on success return
    the response message, on a raised error return one assistant message
    carrying the error string. -/
def agent_node_L (model : List Message → Except (List Char) Message)
    (msgs : List Message) : List Message :=
  match model (model_request_msgs_L msgs) with
  | Except.ok result => [result]
  | Except.error e => [aiMessage (agentErrorText e)]

/-- The messages fragment returned by `agent_node` in `agent_graph.py`
    lines 59-61: invoke the model on the full state; there is no
    `try/except`, so a model error propagates out of the node. -/
def agent_node_G (model : List Message → Except (List Char) Message)
    (msgs : List Message) : Except (List Char) (List Message) :=
  match model (model_request_msgs_G msgs) with
  | Except.ok result => Except.ok [result]
  | Except.error e => Except.error e

/-- One tool-result message produced by the `ToolNode` for one tool call
    request: `role=tool`, content from the transport, `tool_call_id`
    linking back to the request. -/
def toolResultMessage (toolResult : ToolCall → List Char) (tc : ToolCall) :
    Message :=
  ⟨Role.tool, toolResult tc, [], some tc.id⟩

/-- Execution of one graph node of the `agent_logic.py` graph, producing
    the updated state (the fragment returned by the node combined with the
    `operator.add` reducer on `messages`).  `none` models a Python
    exception escaping the node (never the case for the agent
    nodes, which catch; the tools node indexes `messages[-1]`). -/
def runNodeL (o : Oracles) (node : Node) (st : AgentState) :
    Option AgentState :=
  match node with
  | Node.supervisor =>
      some { st with
        next := supervisorRouteText (o.routerText (router_request_msgs_L st.messages)) }
  | Node.searchAgent =>
      some { st with messages := st.messages ++ agent_node_L o.model st.messages }
  | Node.cartAgent =>
      some { st with messages := st.messages ++ agent_node_L o.model st.messages }
  | Node.searchTools =>
      match st.messages.getLast? with
      | some m =>
          some { st with
            messages := st.messages ++ m.tool_calls.map (toolResultMessage o.toolResult) }
      | none => none
  | Node.cartTools =>
      match st.messages.getLast? with
      | some m =>
          some { st with
            messages := st.messages ++ m.tool_calls.map (toolResultMessage o.toolResult) }
      | none => none

/-- Execution of one graph node of the `agent_graph.py` graph.  The agent
    nodes pass the untrimmed history and let a model error propagate
    (`none`); the supervisor passes the untrimmed history to the router. -/
def runNodeG (o : Oracles) (node : Node) (st : AgentState) :
    Option AgentState :=
  match node with
  | Node.supervisor =>
      some { st with
        next := supervisorRouteTextG (o.routerText (router_request_msgs_G st.messages)) }
  | Node.searchAgent =>
      match agent_node_G o.model st.messages with
      | Except.ok frag => some { st with messages := st.messages ++ frag }
      | Except.error _ => none
  | Node.cartAgent =>
      match agent_node_G o.model st.messages with
      | Except.ok frag => some { st with messages := st.messages ++ frag }
      | Except.error _ => none
  | Node.searchTools =>
      match st.messages.getLast? with
      | some m =>
          some { st with
            messages := st.messages ++ m.tool_calls.map (toolResultMessage o.toolResult) }
      | none => none
  | Node.cartTools =>
      match st.messages.getLast? with
      | some m =>
          some { st with
            messages := st.messages ++ m.tool_calls.map (toolResultMessage o.toolResult) }
      | none => none

/-! ## Scheduler loop and step budget

Modelled from the spec: the LangGraph runtime that steps the compiled
graph and enforces `recursion_limit` is library code outside this
repository; the spec describes it as a step budget per turn that forces
termination in an error-terminal state (`GraphRecursionError`) instead of
looping forever.  The budget value 100 is configured in `app.py` line 9.
-/

/-- The step ceiling configured in `app.py` line 9
    (`"recursion_limit": 100`). -/
def recursion_limit : Nat := 100

/-- Outcome of one turn of the scheduler. -/
inductive TurnOutcome where
  | finished (st : AgentState)
  | stepLimitExceeded (st : AgentState)
  | internalError (st : AgentState)
deriving DecidableEq

/-- The state carried by a turn outcome. -/
def outState : TurnOutcome → AgentState
  | TurnOutcome.finished st => st
  | TurnOutcome.stepLimitExceeded st => st
  | TurnOutcome.internalError st => st

/-- Whether a turn outcome is the step-budget error terminal. -/
def isStepLimit : TurnOutcome → Bool
  | TurnOutcome.stepLimitExceeded _ => true
  | _ => false

/-- Whether a turn outcome is normal completion. -/
def isFinished : TurnOutcome → Bool
  | TurnOutcome.finished _ => true
  | _ => false

/-- Modelled from the spec: the scheduler loop of the LangGraph runtime
    (not under `src/`), stepping the `agent_logic.py` graph.  It executes
    the current node, applies the append-only reducer, follows the edge,
    and stops at `END`; the fuel is the per-turn step budget, and running
    out of fuel is the error-terminal `GraphRecursionError` state.  The
    returned list is the trace of executed nodes. -/
def runLoopL (o : Oracles) : Nat → Node → AgentState → List Node × TurnOutcome
  | 0, _, st => ([], TurnOutcome.stepLimitExceeded st)
  | fuel + 1, node, st =>
      match runNodeL o node st with
      | none => ([node], TurnOutcome.internalError st)
      | some st2 =>
          match nextNodeL node st2 with
          | none => ([node], TurnOutcome.internalError st2)
          | some Succ.toEnd => ([node], TurnOutcome.finished st2)
          | some (Succ.toNode n) =>
              let r := runLoopL o fuel n st2
              (node :: r.1, r.2)

/-- Modelled from the spec: the same scheduler loop stepping the
    `agent_graph.py` graph. -/
def runLoopG (o : Oracles) : Nat → Node → AgentState → List Node × TurnOutcome
  | 0, _, st => ([], TurnOutcome.stepLimitExceeded st)
  | fuel + 1, node, st =>
      match runNodeG o node st with
      | none => ([node], TurnOutcome.internalError st)
      | some st2 =>
          match nextNodeG node st2 with
          | none => ([node], TurnOutcome.internalError st2)
          | some Succ.toEnd => ([node], TurnOutcome.finished st2)
          | some (Succ.toNode n) =>
              let r := runLoopG o fuel n st2
              (node :: r.1, r.2)

/-- One user turn as driven by `on_message` in `app.py`: the inbound user
    message is appended (`inputs = {"messages": [HumanMessage(...)]}`) and
    the graph is streamed from the entry point under the configured
    step budget. -/
def runTurn (o : Oracles) (st : AgentState) (userText : List Char) :
    List Node × TurnOutcome :=
  runLoopL o recursion_limit entryPoint
    { st with messages := st.messages ++ [humanMessage userText] }

/-- What `app.astream` delivers back to `on_message`: the final state on
    normal completion, or a raised exception (`GraphRecursionError` on the
    step ceiling, any other escaping exception otherwise). -/
def streamOutcome : TurnOutcome → Except Unit AgentState
  | TurnOutcome.finished st => Except.ok st
  | TurnOutcome.stepLimitExceeded _ => Except.error ()
  | TurnOutcome.internalError _ => Except.error ()

/-- The messages `on_message` (`app.py` lines 13-36) sends to the user.
    There is no `try/except`: a raised exception propagates out of the
    handler before any `cl.Message(...).send()` is reached, so nothing is
    sent.  On success the snapshot always holds the state (truthy, with a
    `messages` key), so the handler sends the content of the last message;
    indexing `[-1]` on an empty message list would itself raise. -/
def on_message_sends (r : Except Unit AgentState) : List (List Char) :=
  match r with
  | Except.error _ => []
  | Except.ok st =>
      match st.messages.getLast? with
      | some m => [m.content]
      | none => []

/-- The assistant-visible messages surfaced by one user turn. -/
def appTurnVisible (o : Oracles) (st : AgentState) (userText : List Char) :
    List (List Char) :=
  on_message_sends (streamOutcome (runTurn o st userText).2)

/-! ## MCP tool executors

Embedding of `execute_mcp_tool` in `sap_client.py` (lines 13-27) and in
`mcp_client_utils.py` (lines 29-34).  A call on the MCP session either
succeeds with result text, succeeds with a result flagged `isError` whose
content describes the error, or raises a transport exception.
-/

/-- Outcome of the underlying MCP session call. -/
inductive McpCallOutcome where
  | success (text : List Char)
  | errorResult (desc : List Char)
  | transportError (e : List Char)
deriving DecidableEq

/-- Embedding of `execute_mcp_tool` in `sap_client.py`: an `isError`
    result is rendered as `"Tool execution error: ..."`, a raised
    exception is caught and rendered as
    `"Error executing tool name: str(e)"`; the function always returns a
    result string. -/
def execute_mcp_tool_sap (toolName : List Char) (outcome : McpCallOutcome) :
    List Char :=
  match outcome with
  | McpCallOutcome.success t => t
  | McpCallOutcome.errorResult d => ("Tool execution error: ").data ++ d
  | McpCallOutcome.transportError e =>
      ("Error executing tool ").data ++ toolName ++ (": ").data ++ e

/-- Embedding of `execute_mcp_tool` in `mcp_client_utils.py`: there is no
    `try/except` and no `isError` check; `result.content[0].text` is
    returned as-is, and a raised transport exception propagates out of
    the executor. -/
def execute_mcp_tool_utils (outcome : McpCallOutcome) :
    Except (List Char) (List Char) :=
  match outcome with
  | McpCallOutcome.success t => Except.ok t
  | McpCallOutcome.errorResult d => Except.ok d
  | McpCallOutcome.transportError e => Except.error e

/-! ## MCP server tool catalog and dispatcher

Embedding of `TOOLS` and `call_tool` in
`services/sap-mcp-server/server.py`.  Arguments arrive as a string-keyed
mapping; the handler for each tool reads its arguments with
`arguments["key"]` (raising `KeyError` when absent, caught by the
enclosing `except Exception` and returned as `"Error: ..."` text) before
the `await client....` remote call is made.  The remote commerce backend
is abstracted as an oracle from tool name and arguments to the final
response text of the successful branch.
-/

/-- An argument value (string or integer or nested object; the dispatch
    logic only tests presence, so the payload is opaque text here). -/
inductive JVal where
  | s (v : List Char)
  | i (n : Int)
deriving DecidableEq

/-- The `arguments` mapping of a tool call. -/
def Args : Type := List (List Char × JVal)

/-- Lookup of `arguments["k"]` / `arguments.get("k", ...)`. -/
def getArg (args : Args) (k : List Char) : Option JVal :=
  match args with
  | [] => none
  | (k2, v) :: rest => if k2 = k then some v else getArg rest k

/-- Text of the caught exception for `Error: {e}` where `e` is a Python
    `KeyError` on key `k` (whose `str` is the key in single quotes). -/
def pyKeyError (k : List Char) : List Char :=
  ("Error: \x27").data ++ k ++ ("\x27").data

/-- Sequential `arguments["key"]` accesses: the first missing key raises
    `KeyError`, which the `except` clause of the dispatcher turns into error text
    without reaching the remote call; when all are present the given
    remote result is produced.  The boolean records whether the remote
    call was reached. -/
def needKeys (args : Args) : List (List Char) → (List Char × Bool) → List Char × Bool
  | [], k => k
  | key :: rest, k =>
      match getArg args key with
      | none => (pyKeyError key, false)
      | some _ => needKeys args rest k

/-- Embedding of `call_tool` in `server.py` lines 130-198.  Each branch
    lists the `arguments[...]` accesses in the order the handler performs
    them before its remote `client` call; response post-processing of the
    successful branch (result simplification, cart-guid extraction) is
    folded into the `remote` oracle.  An unknown tool name raises
    `ValueError`, caught by the same `except` into error text. -/
def call_tool (remote : List Char → Args → List Char)
    (name : List Char) (args : Args) : List Char × Bool :=
  if name = ("search_products").data then
    needKeys args [("query").data] (remote name args, true)
  else if name = ("get_product_details").data then
    needKeys args [("product_code").data] (remote name args, true)
  else if name = ("create_cart").data then
    (remote name args, true)
  else if name = ("add_to_cart").data then
    needKeys args [("cart_id").data, ("product_code").data] (remote name args, true)
  else if name = ("update_cart_entry").data then
    needKeys args [("cart_id").data, ("entry_number").data, ("quantity").data]
      (remote name args, true)
  else if name = ("get_cart").data then
    needKeys args [("cart_id").data] (remote name args, true)
  else if name = ("set_delivery_address").data then
    needKeys args [("first_name").data, ("last_name").data, ("line1").data,
      ("town").data, ("postal_code").data, ("country_isocode").data,
      ("cart_id").data] (remote name args, true)
  else if name = ("set_delivery_mode").data then
    needKeys args [("cart_id").data, ("mode").data] (remote name args, true)
  else if name = ("place_order").data then
    needKeys args [("cart_id").data] (remote name args, true)
  else
    (("Error: Unknown tool: ").data ++ name, false)

/-- The tool names declared in `TOOLS` (`server.py` lines 15-124). -/
def toolNames : List (List Char) :=
  [("search_products").data, ("get_product_details").data,
   ("create_cart").data, ("add_to_cart").data, ("update_cart_entry").data,
   ("get_cart").data, ("set_delivery_address").data,
   ("set_delivery_mode").data, ("place_order").data]

/-- The `required` field lists of the `inputSchema` of each declared tool
    (`server.py` lines 15-124); `create_cart` declares none. -/
def requiredFields (name : List Char) : List (List Char) :=
  if name = ("search_products").data then [("query").data]
  else if name = ("get_product_details").data then [("product_code").data]
  else if name = ("create_cart").data then []
  else if name = ("add_to_cart").data then [("cart_id").data, ("product_code").data]
  else if name = ("update_cart_entry").data then
    [("cart_id").data, ("entry_number").data, ("quantity").data]
  else if name = ("get_cart").data then [("cart_id").data]
  else if name = ("set_delivery_address").data then
    [("cart_id").data, ("first_name").data, ("last_name").data,
     ("line1").data, ("town").data, ("postal_code").data,
     ("country_isocode").data]
  else if name = ("set_delivery_mode").data then
    [("cart_id").data, ("mode").data]
  else if name = ("place_order").data then [("cart_id").data]
  else []

/-! ## Helper lemmas -/

theorem supervisorRouteText_cases (t : List Char) :
    supervisorRouteText t = searchAgentName ∨
    supervisorRouteText t = cartAgentName ∨
    supervisorRouteText t = finishName := by
  unfold supervisorRouteText
  split
  · exact Or.inl rfl
  · split
    · exact Or.inr (Or.inl rfl)
    · exact Or.inr (Or.inr rfl)

theorem runNodeL_messages_grow (o : Oracles) (node : Node) (st : AgentState) :
    st.messages <+: ((runNodeL o node st).getD st).messages := by
  cases node with
  | supervisor => simp [runNodeL]
  | searchAgent => simp [runNodeL, List.prefix_append]
  | cartAgent => simp [runNodeL, List.prefix_append]
  | searchTools =>
      unfold runNodeL
      cases h : st.messages.getLast? with
      | none => simp
      | some m => simp [List.prefix_append]
  | cartTools =>
      unfold runNodeL
      cases h : st.messages.getLast? with
      | none => simp
      | some m => simp [List.prefix_append]

theorem runLoopL_messages_grow (o : Oracles) (fuel : Nat) (node : Node)
    (st : AgentState) :
    st.messages <+: (outState (runLoopL o fuel node st).2).messages := by
  induction fuel generalizing node st with
  | zero => simp [runLoopL, outState]
  | succ fuel ih =>
      unfold runLoopL
      split
      · exact List.prefix_rfl
      · rename_i st2 hrun
        have hpre : st.messages <+: st2.messages := by
          have h2 := runNodeL_messages_grow o node st
          rw [hrun] at h2
          exact h2
        split
        · exact hpre
        · exact hpre
        · rename_i n hnext
          exact hpre.trans (ih n st2)

theorem runLoopL_trace_length (o : Oracles) (fuel : Nat) (node : Node)
    (st : AgentState) :
    (runLoopL o fuel node st).1.length ≤ fuel := by
  induction fuel generalizing node st with
  | zero => simp [runLoopL]
  | succ fuel ih =>
      unfold runLoopL
      split
      · simp
      · rename_i st2 hrun
        split
        · simp
        · simp
        · rename_i n hnext
          simpa [Nat.succ_le_succ_iff] using ih n st2

theorem ne_nil_of_isPrefix {l l2 : List Message} (h : l <+: l2) (hne : l ≠ []) :
    l2 ≠ [] := by
  obtain ⟨t, rfl⟩ := h
  simp_all

/-- With a router oracle that never resolves to `FINISH`, every reachable
    step of the `agent_logic.py` graph from a state with a nonempty
    message list makes another transition, so the loop only ends by
    exhausting the step budget. -/
theorem runLoopL_neverFinish (o : Oracles)
    (h : ∀ msgs, supervisorRouteText (o.routerText msgs) ≠ finishName)
    (fuel : Nat) (node : Node) (st : AgentState) (hne : st.messages ≠ []) :
    isStepLimit (runLoopL o fuel node st).2 = true := by
  induction fuel generalizing node st with
  | zero => simp [runLoopL, isStepLimit]
  | succ fuel ih =>
      unfold runLoopL
      cases node with
      | supervisor =>
          have hne2 : st.messages ≠ [] := hne
          simp only [runNodeL]
          have hroute := supervisorRouteText_cases
            (o.routerText (router_request_msgs_L st.messages))
          rcases hroute with hr | hr | hr
          · simp [nextNodeL, supervisorEdge, hr]
            exact ih Node.searchAgent _ hne2
          · have hsc : searchAgentName ≠ cartAgentName := by decide
            simp [nextNodeL, supervisorEdge, hr, hsc]
            exact ih Node.cartAgent _ hne2
          · exact absurd hr (h _)
      | searchAgent =>
          have hne2 : (st.messages ++ agent_node_L o.model st.messages) ≠ [] := by
            intro hcon
            exact hne (List.append_eq_nil.mp hcon).1
          have hlast : (st.messages ++ agent_node_L o.model st.messages).getLast? ≠
              none := fun hl => hne2 (List.getLast?_eq_none_iff.mp hl)
          simp only [runNodeL]
          cases hl : (st.messages ++ agent_node_L o.model st.messages).getLast? with
          | none => exact absurd hl hlast
          | some m =>
              cases htc : m.tool_calls with
              | nil =>
                  simp [nextNodeL, should_continue, hl, htc]
                  exact ih Node.supervisor _ hne2
              | cons tc rest =>
                  simp [nextNodeL, should_continue, hl, htc]
                  exact ih Node.searchTools _ hne2
      | cartAgent =>
          have hne2 : (st.messages ++ agent_node_L o.model st.messages) ≠ [] := by
            intro hcon
            exact hne (List.append_eq_nil.mp hcon).1
          have hlast : (st.messages ++ agent_node_L o.model st.messages).getLast? ≠
              none := fun hl => hne2 (List.getLast?_eq_none_iff.mp hl)
          simp only [runNodeL]
          cases hl : (st.messages ++ agent_node_L o.model st.messages).getLast? with
          | none => exact absurd hl hlast
          | some m =>
              cases htc : m.tool_calls with
              | nil =>
                  simp [nextNodeL, should_continue, hl, htc]
                  exact ih Node.supervisor _ hne2
              | cons tc rest =>
                  simp [nextNodeL, should_continue, hl, htc]
                  exact ih Node.cartTools _ hne2
      | searchTools =>
          have hlast : st.messages.getLast? ≠ none :=
            fun hl => hne (List.getLast?_eq_none_iff.mp hl)
          simp only [runNodeL]
          cases hl : st.messages.getLast? with
          | none => exact absurd hl hlast
          | some m =>
              simp [nextNodeL, hl]
              refine ih Node.searchAgent _ ?_
              intro hcon
              exact hne (List.append_eq_nil.mp hcon).1
      | cartTools =>
          have hlast : st.messages.getLast? ≠ none :=
            fun hl => hne (List.getLast?_eq_none_iff.mp hl)
          simp only [runNodeL]
          cases hl : st.messages.getLast? with
          | none => exact absurd hl hlast
          | some m =>
              simp [nextNodeL, hl]
              refine ih Node.cartAgent _ ?_
              intro hcon
              exact hne (List.append_eq_nil.mp hcon).1

/-! ## Claims -/

/-- C1 counterexample: the claim says the first specialist name occurring
    in the router response text wins.  On a response in which `CartAgent`
    occurs before `SearchAgent`, the code resolves to `SearchAgent`
    (the `if "SearchAgent" in text` branch is tested first), while the
    first match in the text is `CartAgent`. -/
theorem C1_first_match_counterexample :
    supervisorRouteText (("CartAgent or maybe SearchAgent").data) = searchAgentName ∧
    claimRouteText (("CartAgent or maybe SearchAgent").data) = cartAgentName ∧
    searchAgentName ≠ cartAgentName := by decide

/-- C1 (amended): the router response text is scanned for exact specialist
    names in a fixed priority order, `SearchAgent` before `CartAgent`: if
    `SearchAgent` occurs anywhere as a substring the decision is
    `SearchAgent`; otherwise if `CartAgent` occurs the decision is
    `CartAgent`; otherwise the decision is `FINISH`.  In particular a
    response merely containing `CartAgent` as a substring (such as
    the text of Scenario C) resolves to `CartAgent`, not `FINISH`. -/
theorem C1_router_decision_parsing (text : List Char) :
    (supervisorRouteText text = searchAgentName ↔ searchAgentName <:+: text) ∧
    (supervisorRouteText text = cartAgentName ↔
      (cartAgentName <:+: text ∧ ¬searchAgentName <:+: text)) ∧
    (supervisorRouteText text = finishName ↔
      (¬searchAgentName <:+: text ∧ ¬cartAgentName <:+: text)) ∧
    supervisorRouteText (("I think CartAgent should help").data) = cartAgentName := by
  have hsc : searchAgentName ≠ cartAgentName := by decide
  have hsf : searchAgentName ≠ finishName := by decide
  have hcf : cartAgentName ≠ finishName := by decide
  have hcs : cartAgentName ≠ searchAgentName := by decide
  have hfs : finishName ≠ searchAgentName := by decide
  have hfc : finishName ≠ cartAgentName := by decide
  refine ⟨?_, ?_, ?_, by decide⟩ <;>
  · cases hs : containsL searchAgentName text <;>
      cases hc : containsL cartAgentName text <;>
      simp_all [supervisorRouteText, ← containsL_iff, hsc, hsf, hcf, hcs, hfs, hfc]

/-- C2: the transition relation of the scheduler.  From `Supervisor` control
    moves to the specialist named by the route decision and to the
    terminal state on `FINISH`; from a specialist, control moves to the
    paired tools node exactly when the latest message carries at least
    one tool call request and back to `Supervisor` otherwise, and never
    to the other specialist; from a tools node control returns
    unconditionally to the paired specialist; every turn starts at
    `Supervisor`. -/
theorem C2_transition_relation (st : AgentState) :
    (nextNodeL Node.supervisor st = some (Succ.toNode Node.searchAgent) ↔
      st.next = searchAgentName) ∧
    (nextNodeL Node.supervisor st = some (Succ.toNode Node.cartAgent) ↔
      st.next = cartAgentName) ∧
    (st.next = finishName → nextNodeL Node.supervisor st = some Succ.toEnd) ∧
    (∀ m, st.messages.getLast? = some m →
      nextNodeL Node.searchAgent st =
        some (Succ.toNode
          (if m.tool_calls.isEmpty then Node.supervisor else Node.searchTools)) ∧
      nextNodeL Node.cartAgent st =
        some (Succ.toNode
          (if m.tool_calls.isEmpty then Node.supervisor else Node.cartTools))) ∧
    nextNodeL Node.searchAgent st ≠ some (Succ.toNode Node.cartAgent) ∧
    nextNodeL Node.cartAgent st ≠ some (Succ.toNode Node.searchAgent) ∧
    nextNodeL Node.searchTools st = some (Succ.toNode Node.searchAgent) ∧
    nextNodeL Node.cartTools st = some (Succ.toNode Node.cartAgent) ∧
    entryPoint = Node.supervisor := by
  have hsc : searchAgentName ≠ cartAgentName := by decide
  have hcs : cartAgentName ≠ searchAgentName := by decide
  have hfs : finishName ≠ searchAgentName := by decide
  have hfc : finishName ≠ cartAgentName := by decide
  refine ⟨?_, ?_, ?_, ?_, ?_, ?_, rfl, rfl, rfl⟩
  · by_cases hA : st.next = searchAgentName
    · simp [nextNodeL, supervisorEdge, hA, hsc, hcs, hfs, hfc]
    · by_cases hB : st.next = cartAgentName
      · simp [nextNodeL, supervisorEdge, hA, hB, hsc, hcs, hfs, hfc]
      · by_cases hC : st.next = finishName
        · simp [nextNodeL, supervisorEdge, hA, hB, hC, hsc, hcs, hfs, hfc]
        · simp [nextNodeL, supervisorEdge, hA, hB, hC, hsc, hcs, hfs, hfc]
  · by_cases hA : st.next = searchAgentName
    · simp [nextNodeL, supervisorEdge, hA, hsc, hcs, hfs, hfc]
    · by_cases hB : st.next = cartAgentName
      · simp [nextNodeL, supervisorEdge, hA, hB, hsc, hcs, hfs, hfc]
      · by_cases hC : st.next = finishName
        · simp [nextNodeL, supervisorEdge, hA, hB, hC, hsc, hcs, hfs, hfc]
        · simp [nextNodeL, supervisorEdge, hA, hB, hC, hsc, hcs, hfs, hfc]
  · intro hC
    simp [nextNodeL, supervisorEdge, hC, hfs, hfc]
  · intro m hm
    cases hb : m.tool_calls.isEmpty <;>
      simp [nextNodeL, should_continue, hm, hb]
  · unfold nextNodeL
    cases hsc2 : should_continue st.messages with
    | none => simp
    | some b => cases b <;> simp
  · unfold nextNodeL
    cases hsc2 : should_continue st.messages with
    | none => simp
    | some b => cases b <;> simp

/-- C2 witness: in a state routed to `SearchAgent` whose last message
    carries one tool call, the supervisor hands control to `SearchAgent`
    and the specialist proceeds to its tools node. -/
theorem C2_transition_relation_witness :
    nextNodeL Node.supervisor
      ⟨[⟨Role.assistant, [], [⟨("1").data, ("vector_search").data, []⟩], none⟩],
        searchAgentName⟩ = some (Succ.toNode Node.searchAgent) ∧
    nextNodeL Node.searchAgent
      ⟨[⟨Role.assistant, [], [⟨("1").data, ("vector_search").data, []⟩], none⟩],
        searchAgentName⟩ = some (Succ.toNode Node.searchTools) ∧
    (finishName = finishName →
      nextNodeL Node.supervisor
        ⟨[], finishName⟩ = some Succ.toEnd) := by
  have h1 := C2_transition_relation
    ⟨[⟨Role.assistant, [], [⟨("1").data, ("vector_search").data, []⟩], none⟩],
      searchAgentName⟩
  have h2 := C2_transition_relation (AgentState.mk [] finishName)
  refine ⟨h1.1.mpr rfl, ?_, fun _ => h2.2.2.1 rfl⟩
  have h3 := (h1.2.2.2.1 _ rfl).1
  simpa using h3

/-- A router/model oracle set whose router response always names
    `SearchAgent` and whose agent model always answers with a plain
    message: the turn can never reach `FINISH`. -/
def loopOracles : Oracles :=
  ⟨fun _ => searchAgentName, fun _ => Except.ok (aiMessage (("ok").data)),
   fun _ => ("ok").data⟩

/-- C3: one turn of the scheduler performs at most `recursion_limit`
    (configured to 100 in `app.py`) transitions for every oracle set and
    session state; and under a router that never resolves to `FINISH` the
    turn ends in the step-limit error terminal instead of looping
    forever. -/
theorem C3_step_budget (o : Oracles) (st : AgentState) (userText : List Char) :
    (runTurn o st userText).1.length ≤ recursion_limit ∧
    ((∀ msgs, supervisorRouteText (o.routerText msgs) ≠ finishName) →
      isStepLimit (runTurn o st userText).2 = true) := by
  constructor
  · exact runLoopL_trace_length o recursion_limit entryPoint _
  · intro h
    exact runLoopL_neverFinish o h recursion_limit entryPoint _ (by simp)

/-- C3 witness: with the always-`SearchAgent` router the turn stays within
    the budget and ends in the step-limit terminal. -/
theorem C3_step_budget_witness :
    (runTurn loopOracles ⟨[], []⟩ (("hi").data)).1.length ≤ recursion_limit ∧
    isStepLimit (runTurn loopOracles ⟨[], []⟩ (("hi").data)).2 = true := by
  have h := C3_step_budget loopOracles ⟨[], []⟩ (("hi").data)
  refine ⟨h.1, h.2 (fun msgs => ?_)⟩
  show supervisorRouteText searchAgentName ≠ finishName
  decide

/-- C4: every scheduler step only appends to the message sequence — for
    any node action the input messages are a prefix of the output
    messages, and over any whole run the starting message sequence is a
    prefix of the final one. -/
theorem C4_append_only (o : Oracles) (node : Node) (st : AgentState)
    (fuel : Nat) :
    st.messages <+: ((runNodeL o node st).getD st).messages ∧
    st.messages <+: (outState (runLoopL o fuel node st).2).messages :=
  ⟨runNodeL_messages_grow o node st, runLoopL_messages_grow o fuel node st⟩

/-- C5 counterexample: the claim quantifies over every agent-node step,
    but the agent node of `agent_graph.py` has no `try/except`: a model
    error propagates out of the step instead of being converted into an
    assistant message, so no successor state fragment is produced. -/
theorem C5_uncaught_error_counterexample :
    agent_node_G (fun _ => Except.error (("boom").data)) [] =
      Except.error (("boom").data) := rfl

/-- C5 (amended): in the `agent_logic.py` agent node a model error is
    caught and becomes exactly one assistant message whose content is the
    fixed error prefix followed by the error string, and the node always
    returns a successor state; the `agent_graph.py` agent node instead
    propagates exactly the model error. -/
theorem C5_agent_error_handling
    (model : List Message → Except (List Char) Message)
    (msgs : List Message) (e : List Char) (o : Oracles) (st : AgentState) :
    (model (model_request_msgs_L msgs) = Except.error e →
      agent_node_L model msgs = [aiMessage (agentErrorText e)]) ∧
    (runNodeL o Node.searchAgent st).isSome = true ∧
    (runNodeL o Node.cartAgent st).isSome = true ∧
    (agent_node_G model msgs = Except.error e ↔
      model (model_request_msgs_G msgs) = Except.error e) := by
  refine ⟨?_, rfl, rfl, ?_⟩
  · intro h
    simp [agent_node_L, h]
  · unfold agent_node_G
    cases hm : model (model_request_msgs_G msgs) with
    | ok r => simp [hm]
    | error e2 => simp [hm]

/-- C5 witness: a concrete erroring model is converted into one assistant
    error message by the `agent_logic.py` node. -/
theorem C5_agent_error_handling_witness :
    agent_node_L (fun _ => Except.error (("down").data)) [] =
      [aiMessage (agentErrorText (("down").data))] := by
  have h := C5_agent_error_handling (fun _ => Except.error (("down").data))
    [] (("down").data) loopOracles ⟨[], []⟩
  exact h.1 rfl

/-- C6 counterexample: the claim quantifies over every tool call executed
    by the tool executors, but `execute_mcp_tool` in
    `mcp_client_utils.py` has no `try/except`: a transport failure raises
    out of the executor instead of becoming a tool-result string. -/
theorem C6_tool_error_raises_counterexample :
    execute_mcp_tool_utils
        (McpCallOutcome.transportError (("connection refused").data)) =
      Except.error (("connection refused").data) := rfl

/-- C6 (amended): in the `sap_client.py` executor a tool failure never
    raises: an error-flagged result and a transport exception are each
    rendered as one error-description result string; and the tools step
    appends exactly one tool-result message per tool call request, each
    linked back to its request id, so no result is dropped. -/
theorem C6_tool_error_handling (name d e : List Char) (o : Oracles)
    (st : AgentState) (m : Message) :
    execute_mcp_tool_sap name (McpCallOutcome.errorResult d) =
      ("Tool execution error: ").data ++ d ∧
    execute_mcp_tool_sap name (McpCallOutcome.transportError e) =
      ("Error executing tool ").data ++ name ++ (": ").data ++ e ∧
    (st.messages.getLast? = some m →
      runNodeL o Node.searchTools st =
        some { st with messages := st.messages ++
          m.tool_calls.map (toolResultMessage o.toolResult) } ∧
      (m.tool_calls.map (toolResultMessage o.toolResult)).length =
        m.tool_calls.length ∧
      ∀ tc ∈ m.tool_calls,
        (toolResultMessage o.toolResult tc).tool_call_id = some tc.id) := by
  refine ⟨rfl, rfl, fun hm => ⟨?_, by simp, fun tc _ => rfl⟩⟩
  simp [runNodeL, hm]

/-- C6 witness: a state whose last message requests one tool call gets
    exactly that one tool-result message appended. -/
theorem C6_tool_error_handling_witness :
    runNodeL loopOracles Node.searchTools
      ⟨[⟨Role.assistant, [], [⟨("1").data, ("vector_search").data, []⟩], none⟩],
        []⟩ =
      some ⟨[⟨Role.assistant, [], [⟨("1").data, ("vector_search").data, []⟩], none⟩,
        ⟨Role.tool, ("ok").data, [], some (("1").data)⟩], []⟩ := by
  have h := C6_tool_error_handling [] [] [] loopOracles
    ⟨[⟨Role.assistant, [], [⟨("1").data, ("vector_search").data, []⟩], none⟩], []⟩
    ⟨Role.assistant, [], [⟨("1").data, ("vector_search").data, []⟩], none⟩
  have h2 := (h.2.2 rfl).1
  simpa [toolResultMessage, loopOracles] using h2

/-- C7 counterexample: the claim quantifies over every agent-node step and
    the router, but the `agent_graph.py` agent node and supervisor put the
    full untrimmed message sequence into the model request: on a
    7-message history the request is not the last 6 messages. -/
theorem C7_window_counterexample :
    model_request_msgs_G (List.replicate 7 (humanMessage [])) ≠
      takeLastN 6 (List.replicate 7 (humanMessage [])) ∧
    router_request_msgs_G (List.replicate 7 (humanMessage [])) ≠
      takeLastN 6 (List.replicate 7 (humanMessage [])) := by
  constructor <;> decide

/-- C7 (amended): in `agent_logic.py` the agent-node model request and the
    router prompt are built from exactly the last 6 messages (all of them
    when fewer exist): the window is a suffix of the history of length
    `min 6 n`, the output of the node depends only on that window, and older
    messages are omitted; the `agent_graph.py` variant passes the full
    history instead. -/
theorem C7_model_window (msgs : List Message) :
    model_request_msgs_L msgs = takeLastN 6 msgs ∧
    (model_request_msgs_L msgs).length = min 6 msgs.length ∧
    model_request_msgs_L msgs <:+ msgs ∧
    (msgs.length ≤ 6 → model_request_msgs_L msgs = msgs) ∧
    router_request_msgs_L msgs = takeLastN 6 msgs ∧
    model_request_msgs_G msgs = msgs ∧
    (∀ model, agent_node_L model msgs =
      agent_node_L model (model_request_msgs_L msgs)) := by
  refine ⟨rfl, takeLastN_length 6 msgs, takeLastN_suffix 6 msgs,
    fun h => takeLastN_of_short 6 msgs h, rfl, rfl, fun model => ?_⟩
  simp [agent_node_L, model_request_msgs_L, takeLastN_idem]

/-- C7 witness: on a short history the window is the whole history. -/
theorem C7_model_window_witness :
    ([humanMessage (("hi").data)] : List Message).length ≤ 6 ∧
    model_request_msgs_L [humanMessage (("hi").data)] =
      [humanMessage (("hi").data)] := by
  have h := C7_model_window [humanMessage (("hi").data)]
  exact ⟨by decide, h.2.2.2.1 (by decide)⟩

/-- C8 counterexample: the claim says a turn always surfaces exactly one
    assistant-visible message, even when the step ceiling terminates the
    turn.  `on_message` in `app.py` has no exception handling: when the
    scheduler ends in the step-limit error terminal, the raised
    `GraphRecursionError` propagates out of the handler before any send,
    and zero messages are surfaced. -/
theorem C8_zero_visible_counterexample :
    isStepLimit (runTurn loopOracles ⟨[], []⟩ (("hi").data)).2 = true ∧
    appTurnVisible loopOracles ⟨[], []⟩ (("hi").data) = [] := by
  constructor
  · refine runLoopL_neverFinish loopOracles (fun msgs => ?_) recursion_limit
      entryPoint _ (by simp)
    show supervisorRouteText searchAgentName ≠ finishName
    decide
  · unfold appTurnVisible
    have h : isStepLimit (runTurn loopOracles ⟨[], []⟩ (("hi").data)).2 = true := by
      refine runLoopL_neverFinish loopOracles (fun msgs => ?_) recursion_limit
        entryPoint _ (by simp)
      show supervisorRouteText searchAgentName ≠ finishName
      decide
    cases hout : (runTurn loopOracles ⟨[], []⟩ (("hi").data)).2 with
    | finished stF => rw [hout] at h; simp [isStepLimit] at h
    | stepLimitExceeded stF => simp [hout, streamOutcome, on_message_sends]
    | internalError stF => simp [hout, streamOutcome, on_message_sends]

/-- C8 (amended): a turn surfaces exactly one assistant-visible message
    precisely when the scheduler completes normally (one message holding the last
    content); when the turn ends in the step-limit error terminal or an
    internal error, the exception propagates out of `on_message` and zero
    messages are surfaced. -/
theorem C8_visible_message_count (o : Oracles) (st : AgentState)
    (t : List Char) :
    (appTurnVisible o st t).length =
      (if isFinished (runTurn o st t).2 = true then 1 else 0) := by
  unfold appTurnVisible
  cases hout : (runTurn o st t).2 with
  | finished stF =>
      have hpre : (st.messages ++ [humanMessage t]) <+: stF.messages := by
        have h2 := runLoopL_messages_grow o recursion_limit entryPoint
          { st with messages := st.messages ++ [humanMessage t] }
        unfold runTurn at hout
        rw [hout] at h2
        exact h2
      have hne : stF.messages ≠ [] := ne_nil_of_isPrefix hpre (by simp)
      cases hl : stF.messages.getLast? with
      | none => exact absurd (List.getLast?_eq_none_iff.mp hl) hne
      | some m =>
          simp [hout, streamOutcome, on_message_sends, hl, isFinished]
  | stepLimitExceeded stF =>
      simp [hout, streamOutcome, on_message_sends, isFinished]
  | internalError stF =>
      simp [hout, streamOutcome, on_message_sends, isFinished]

/-- Sequential required-argument access: when some listed key is missing
    from the arguments, the access chain stops at the first missing key
    with its `KeyError` text and the continuation (the remote call) is
    never reached. -/
theorem needKeys_missing (args : Args) (keys : List (List Char))
    (k : List Char) (hk : k ∈ keys) (hmiss : getArg args k = none)
    (cont : List Char × Bool) :
    (needKeys args keys cont).2 = false ∧
    ∃ k2, k2 ∈ keys ∧ getArg args k2 = none ∧
      (needKeys args keys cont).1 = pyKeyError k2 := by
  induction keys with
  | nil => cases hk
  | cons key rest ih =>
      unfold needKeys
      cases hak : getArg args key with
      | none =>
          exact ⟨rfl, key, List.mem_cons_self key rest, hak, rfl⟩
      | some v =>
          have hkr : k ∈ rest := by
            rcases List.mem_cons.mp hk with rfl | hr
            · rw [hak] at hmiss; cases hmiss
            · exact hr
          obtain ⟨h2, k2, hmem, hnone, heq⟩ := ih hkr
          exact ⟨h2, k2, List.mem_cons_of_mem key hmem, hnone, heq⟩

/-- C9: for every declared tool and every argument mapping missing one of
    the declared required fields of that tool, the dispatcher fails before the
    remote call — the remote backend is never reached — and the result it
    returns as the tool result is the error text of the missing-key
    failure, so the conversation continues with an error tool result. -/
theorem C9_required_fields (remote : List Char → Args → List Char)
    (name k : List Char) (args : Args)
    (hname : name ∈ toolNames) (hk : k ∈ requiredFields name)
    (hmiss : getArg args k = none) :
    (call_tool remote name args).2 = false ∧
    ∃ k2, getArg args k2 = none ∧
      (call_tool remote name args).1 = pyKeyError k2 := by
  have main : ∀ keys, k ∈ keys → ∀ cont : List Char × Bool,
      (needKeys args keys cont).2 = false ∧
      ∃ k2, getArg args k2 = none ∧
        (needKeys args keys cont).1 = pyKeyError k2 := by
    intro keys hkk cont
    obtain ⟨h2, k2, _, hnone, heq⟩ := needKeys_missing args keys k hkk hmiss cont
    exact ⟨h2, k2, hnone, heq⟩
  simp only [toolNames, List.mem_cons, List.not_mem_nil, or_false] at hname
  rcases hname with rfl | rfl | rfl | rfl | rfl | rfl | rfl | rfl | rfl <;>
    simp +decide only [requiredFields, if_true, if_false] at hk <;>
    simp +decide only [call_tool, if_true, if_false]
  · exact main _ hk _
  · exact main _ hk _
  · exact absurd hk (List.not_mem_nil k)
  · exact main _ hk _
  · exact main _ hk _
  · exact main _ hk _
  · refine main _ ?_ _
    simp only [List.mem_cons, List.not_mem_nil, or_false] at hk ⊢
    tauto
  · exact main _ hk _
  · exact main _ hk _

/-- C9 witness: calling `get_cart` with empty arguments fails before the
    remote call. -/
theorem C9_required_fields_witness :
    (call_tool (fun _ _ => []) (("get_cart").data) []).2 = false := by
  have h := C9_required_fields (fun _ _ => []) (("get_cart").data)
    (("cart_id").data) [] (by decide) (by decide) rfl
  exact h.1

/-- A model oracle whose response text depends on how many messages were
    put in the request: it answers differently for a 7-message request
    than for a 6-message one. -/
def lenProbeOracles : Oracles :=
  ⟨fun _ => finishName,
   fun msgs => Except.ok
     (aiMessage (if msgs.length = 7 then ("seven").data else ("other").data)),
   fun _ => []⟩

/-- C10 counterexample: the claim says the two builders differ only in the
    model-transport binding.  They differ in the request they build: on a
    7-message history with the same underlying model, the `agent_logic.py`
    node (last-6 window) and the `agent_graph.py` node (full history)
    produce different successor states. -/
theorem C10_not_transport_only_counterexample :
    runNodeL lenProbeOracles Node.searchAgent
        ⟨List.replicate 7 (humanMessage []), []⟩ ≠
      runNodeG lenProbeOracles Node.searchAgent
        ⟨List.replicate 7 (humanMessage []), []⟩ := by decide

/-- C10 (amended): the two builders construct state machines with the same
    node set, identical transition structure (entry point, conditional
    edges, router parsing), and for any oracle set whose model and router
    are insensitive to the last-6 window and whose model never errors,
    the two graphs take the same steps and produce identical runs — but
    the node bodies differ beyond the transport binding (window size and
    error handling, refuted separately above). -/
theorem C10_same_state_machine (o : Oracles)
    (hm : ∀ msgs, o.model (takeLastN agent_window msgs) = o.model msgs)
    (hr : ∀ msgs, o.routerText (takeLastN agent_window msgs) = o.routerText msgs)
    (hok : ∀ msgs e, o.model msgs ≠ Except.error e) :
    (∀ node st, nextNodeL node st = nextNodeG node st) ∧
    supervisorRouteText = supervisorRouteTextG ∧
    entryPoint = Node.supervisor ∧
    (∀ node st, runNodeL o node st = runNodeG o node st) ∧
    (∀ fuel node st, runLoopL o fuel node st = runLoopG o fuel node st) := by
  have hnext : ∀ node st, nextNodeL node st = nextNodeG node st := by
    intro node st
    cases node <;> rfl
  have hnode : ∀ node st, runNodeL o node st = runNodeG o node st := by
    intro node st
    cases node with
    | supervisor =>
        simp only [runNodeL, runNodeG, router_request_msgs_L,
          router_request_msgs_G, hr]
        rfl
    | searchAgent =>
        cases hmm : o.model st.messages with
        | error e => exact absurd hmm (hok _ e)
        | ok r =>
            simp [runNodeL, runNodeG, agent_node_L, agent_node_G,
              model_request_msgs_L, model_request_msgs_G, hm, hmm]
    | cartAgent =>
        cases hmm : o.model st.messages with
        | error e => exact absurd hmm (hok _ e)
        | ok r =>
            simp [runNodeL, runNodeG, agent_node_L, agent_node_G,
              model_request_msgs_L, model_request_msgs_G, hm, hmm]
    | searchTools => rfl
    | cartTools => rfl
  refine ⟨hnext, ?_, rfl, hnode, ?_⟩
  · funext t
    rfl
  · intro fuel
    induction fuel with
    | zero => intro node st; rfl
    | succ fuel ih =>
        intro node st
        unfold runLoopL runLoopG
        rw [hnode node st]
        cases runNodeG o node st with
        | none => rfl
        | some st2 =>
            dsimp only
            rw [hnext node st2]
            cases nextNodeG node st2 with
            | none => rfl
            | some sc =>
                cases sc with
                | toEnd => rfl
                | toNode n => simp [ih n st2]

/-- An oracle set insensitive to the message window: constant router text
    and constant model response. -/
def constOracles : Oracles :=
  ⟨fun _ => finishName, fun _ => Except.ok (aiMessage (("done").data)),
   fun _ => []⟩

/-- C10 witness: under a window-insensitive, non-erroring oracle set the
    two graphs take identical runs. -/
theorem C10_same_state_machine_witness :
    runLoopL constOracles 3 entryPoint ⟨[], []⟩ =
      runLoopG constOracles 3 entryPoint ⟨[], []⟩ ∧
    nextNodeL Node.supervisor ⟨[], []⟩ = nextNodeG Node.supervisor ⟨[], []⟩ := by
  have h := C10_same_state_machine constOracles (fun msgs => rfl)
    (fun msgs => rfl) (fun msgs e herr => by cases herr)
  exact ⟨h.2.2.2.2 3 entryPoint ⟨[], []⟩, h.1 Node.supervisor ⟨[], []⟩⟩

end CommerceAgent
